import Mathlib

/-!
Verification of the PREFID-SDK repository.

The repository has three source files:
* `scripts/generate_docs.py` — builds an in-memory notebook structure (`cells`, `nb`)
  and serializes it to JSON with `json.dump(nb, f, indent=2)`;
* `scripts/push_to_hub.py` — pushes two prompt templates to a remote prompt
  registry inside a single try/except block;
* `examples/restaurant_recommender.py` — an example agent calling the
  `create_prefid_tools` preference-tool adapter (the adapter itself is not part
  of the repository; it is modelled from the specification below).

The development embeds the JSON data model and Python's `json.dump`/`json.loads`
(restricted to the constructs the notebook uses), proves a general
parse-of-render round-trip theorem, and instantiates it at the generated
notebook; it embeds the publish script as a trace semantics over an oracle for
the remote `hub.push` call; and it models the preference-tool adapter from the
specification, proving its error-handling and scoping properties.
-/

set_option maxRecDepth 4000

/-- JSON values, as built by `generate_docs.py`: null (`None`), booleans,
natural numbers, strings, arrays (lists) and objects (dicts, which preserve
insertion order). -/
inductive Json where
  | null
  | bool (b : Bool)
  | num (n : Nat)
  | str (s : String)
  | arr (elems : List Json)
  | obj (fields : List (String × Json))

namespace Json

/-- The left-brace character, written by its code point. -/
def lbrace : Char := Char.ofNat 123

/-- The right-brace character, written by its code point. -/
def rbrace : Char := Char.ofNat 125

/-- Lower-case hexadecimal digit for `n < 16`, as emitted by `\uXXXX` escapes. -/
def hexDigit (n : Nat) : Char :=
  if n < 10 then Char.ofNat (48 + n) else Char.ofNat (87 + n)

/-- JSON string escaping of one character, modelling Python's `json.dump`
default (`ensure_ascii=True`): backslash, quote, newline, tab and carriage
return use short escapes; remaining control characters and all non-ASCII
characters become `\uXXXX`. -/
def escChar (c : Char) : List Char :=
  if c = '\\' then ['\\', '\\']
  else if c = '"' then ['\\', '"']
  else if c = '\n' then ['\\', 'n']
  else if c = '\t' then ['\\', 't']
  else if c = '\r' then ['\\', 'r']
  else if c.toNat < 32 ∨ c.toNat > 126 then
    ['\\', 'u', hexDigit (c.toNat / 4096 % 16), hexDigit (c.toNat / 256 % 16),
     hexDigit (c.toNat / 16 % 16), hexDigit (c.toNat % 16)]
  else [c]

/-- A JSON string literal: quoted, with each character escaped. -/
def renderStr (s : String) : List Char :=
  '"' :: s.data.flatMap escChar ++ ['"']

/-- Decimal digit character for `n < 10`. -/
def digitChar (n : Nat) : Char := Char.ofNat (48 + n)

/-- Decimal digits of `n`, most significant first; `fuel` bounds the recursion
and any `fuel > n` is enough. -/
def natDigitsAux : Nat → Nat → List Char
  | 0, _ => []
  | fuel + 1, n =>
      if n < 10 then [digitChar n]
      else natDigitsAux fuel (n / 10) ++ [digitChar (n % 10)]

/-- Decimal rendering of a natural number. -/
def renderNat (n : Nat) : List Char := natDigitsAux (n + 1) n

/-- Newline followed by `ind` spaces: the whitespace `json.dump` emits between
items when called with `indent=2`. -/
def nl (ind : Nat) : List Char :=
  '\n' :: List.replicate ind ' '

mutual

/-- Serialization of a JSON value at indentation level `ind`, modelling
`json.dump(…, indent=2)`: objects and arrays put every item on its own line,
indented two spaces deeper, with `", "`-free item separators (`,` + newline)
and `": "` between a key and its value; empty arrays and objects render as
`[]` and `{}`. -/
def render (ind : Nat) : Json → List Char
  | .null => 'n' :: ['u', 'l', 'l']
  | .bool true => 't' :: ['r', 'u', 'e']
  | .bool false => 'f' :: ['a', 'l', 's', 'e']
  | .num n => renderNat n
  | .str s => renderStr s
  | .arr [] => ['[', ']']
  | .arr (x :: xs) =>
      '[' :: nl (ind + 2) ++ render (ind + 2) x ++ renderArrTail (ind + 2) xs ++ nl ind ++ [']']
  | .obj [] => [lbrace, rbrace]
  | .obj (f :: fs) =>
      lbrace :: nl (ind + 2) ++ renderField (ind + 2) f ++ renderObjTail (ind + 2) fs
        ++ nl ind ++ [rbrace]

/-- Remaining array elements, each preceded by `,` and a fresh indented line. -/
def renderArrTail (ind : Nat) : List Json → List Char
  | [] => []
  | x :: xs => ',' :: nl ind ++ render ind x ++ renderArrTail ind xs

/-- One `"key": value` object entry. -/
def renderField (ind : Nat) (f : String × Json) : List Char :=
  renderStr f.1 ++ ':' :: ' ' :: render ind f.2

/-- Remaining object entries, each preceded by `,` and a fresh indented line. -/
def renderObjTail (ind : Nat) : List (String × Json) → List Char
  | [] => []
  | f :: fs => ',' :: nl ind ++ renderField ind f ++ renderObjTail ind fs

end

/-- `json.dump` of a value: its rendering at top-level indentation, as a string. -/
def dumps (j : Json) : String := String.mk (render 0 j)

/-- JSON insignificant whitespace. -/
def isWs (c : Char) : Bool := c = ' ' || c = '\n' || c = '\t' || c = '\r'

/-- Drop leading insignificant whitespace. -/
def skipWs : List Char → List Char
  | c :: cs => if isWs c then skipWs cs else c :: cs
  | [] => []

/-- Value of a hexadecimal digit character, if it is one. -/
def hexVal (c : Char) : Option Nat :=
  if 48 ≤ c.toNat ∧ c.toNat ≤ 57 then some (c.toNat - 48)
  else if 97 ≤ c.toNat ∧ c.toNat ≤ 102 then some (c.toNat - 87)
  else if 65 ≤ c.toNat ∧ c.toNat ≤ 70 then some (c.toNat - 55)
  else none

/-- Decoded character of a one-letter escape sequence `\e`, if valid. -/
def escByte (e : Char) : Option Char :=
  if e = 'n' then some '\n'
  else if e = 't' then some '\t'
  else if e = 'r' then some '\r'
  else if e = '"' then some '"'
  else if e = '\\' then some '\\'
  else if e = '/' then some '/'
  else if e = 'b' then some (Char.ofNat 8)
  else if e = 'f' then some (Char.ofNat 12)
  else none

/-- Parse the body of a JSON string literal (after the opening quote) up to and
through the closing quote, decoding escapes; returns the decoded characters and
the remaining input.  `fuel` bounds the number of decoded characters; one more
than the count of decoded characters is always enough. -/
def parseStrBody : Nat → List Char → Option (List Char × List Char)
  | 0, _ => none
  | _ + 1, [] => none
  | fuel + 1, c :: cs =>
    if c = '"' then some ([], cs)
    else if c = '\\' then
      match cs with
      | [] => none
      | e :: cs' =>
        if e = 'u' then
          match cs' with
          | a :: b :: d :: f :: cs'' =>
            match hexVal a, hexVal b, hexVal d, hexVal f with
            | some va, some vb, some vd, some ve =>
                (fun r => (Char.ofNat (va * 4096 + vb * 256 + vd * 16 + ve) :: r.1, r.2)) <$>
                  parseStrBody fuel cs''
            | _, _, _, _ => none
          | _ => none
        else
          match escByte e with
          | some ch => (fun r => (ch :: r.1, r.2)) <$> parseStrBody fuel cs'
          | none => none
    else if c.toNat < 32 then none
    else (fun r => (c :: r.1, r.2)) <$> parseStrBody fuel cs

/-- Decimal digit character test. -/
def isDigit (c : Char) : Bool := 48 ≤ c.toNat && c.toNat ≤ 57

/-- Accumulate consecutive decimal digits into a number. -/
def parseNatAux (acc : Nat) : List Char → Nat × List Char
  | c :: cs =>
      if isDigit c then parseNatAux (acc * 10 + (c.toNat - 48)) cs else (acc, c :: cs)
  | [] => (acc, [])

/-- A list that does not begin with a decimal digit (so a number parse stops
exactly here). -/
def noDigitHead : List Char → Bool
  | [] => true
  | c :: _ => !isDigit c

mutual

/-- Parse one JSON value, modelling `json.loads` on the constructs the
repository emits: `null`, booleans, non-negative integers, strings, arrays and
objects, with arbitrary insignificant whitespace between tokens. `fuel` bounds
the recursion depth. -/
def parseVal : Nat → List Char → Option (Json × List Char)
  | 0, _ => none
  | fuel + 1, cs =>
    match skipWs cs with
    | [] => none
    | c :: rest =>
      if c = '"' then
        match parseStrBody (rest.length + 1) rest with
        | some (l, r) => some (.str (String.mk l), r)
        | none => none
      else if c = '[' then
        match skipWs rest with
        | [] => none
        | c₁ :: r =>
          if c₁ = ']' then some (.arr [], r)
          else
            match parseElems fuel (c₁ :: r) with
            | some (l, r') => some (.arr l, r')
            | none => none
      else if c = lbrace then
        match skipWs rest with
        | [] => none
        | c₁ :: r =>
          if c₁ = rbrace then some (.obj [], r)
          else
            match parseFields fuel (c₁ :: r) with
            | some (l, r') => some (.obj l, r')
            | none => none
      else if isDigit c then
        some (.num (parseNatAux 0 (c :: rest)).1, (parseNatAux 0 (c :: rest)).2)
      else if c = 'n' then
        match rest with
        | 'u' :: 'l' :: 'l' :: r => some (.null, r)
        | _ => none
      else if c = 't' then
        match rest with
        | 'r' :: 'u' :: 'e' :: r => some (.bool true, r)
        | _ => none
      else if c = 'f' then
        match rest with
        | 'a' :: 'l' :: 's' :: 'e' :: r => some (.bool false, r)
        | _ => none
      else none

/-- Parse the elements of a non-empty array, through the closing `]`. -/
def parseElems : Nat → List Char → Option (List Json × List Char)
  | 0, _ => none
  | fuel + 1, cs =>
    match parseVal fuel cs with
    | none => none
    | some (j, rest) =>
      match skipWs rest with
      | [] => none
      | c :: rest' =>
        if c = ',' then
          match parseElems fuel rest' with
          | some (l, r) => some (j :: l, r)
          | none => none
        else if c = ']' then some ([j], rest')
        else none

/-- Parse the entries of a non-empty object, through the closing brace. -/
def parseFields : Nat → List Char → Option (List (String × Json) × List Char)
  | 0, _ => none
  | fuel + 1, cs =>
    match skipWs cs with
    | [] => none
    | c :: rest =>
      if c = '"' then
        match parseStrBody (rest.length + 1) rest with
        | none => none
        | some (k, rest₁) =>
          match skipWs rest₁ with
          | [] => none
          | c₁ :: rest₂ =>
            if c₁ = ':' then
              match parseVal fuel rest₂ with
              | none => none
              | some (v, rest₃) =>
                match skipWs rest₃ with
                | [] => none
                | c₂ :: rest₄ =>
                  if c₂ = ',' then
                    match parseFields fuel rest₄ with
                    | some (l, r) => some ((String.mk k, v) :: l, r)
                    | none => none
                  else if c₂ = rbrace then some ([(String.mk k, v)], rest₄)
                  else none
            else none
      else none

end

/-- `json.loads`: parse a complete document, requiring only whitespace after
the value. -/
def loads (s : String) : Option Json :=
  match parseVal (2 * s.length + 2) s.data with
  | some (j, rest) => if skipWs rest = [] then some j else none
  | none => none

/-- A string every character of which the escape/unescape pair round-trips
(code point below `2^16`; astral characters would need surrogate pairs, which
the notebook never contains). -/
def wfStr (s : String) : Bool := s.data.all fun c => c.toNat < 65536

mutual

/-- Well-formedness for the round-trip theorem: every string (and every object
key) consists of characters below `2^16`. -/
def wf : Json → Bool
  | .null => true
  | .bool _ => true
  | .num _ => true
  | .str s => wfStr s
  | .arr l => wfElems l
  | .obj l => wfFields l

/-- `wf` on every element of an array. -/
def wfElems : List Json → Bool
  | [] => true
  | x :: xs => wf x && wfElems xs

/-- `wf` on every key and value of an object. -/
def wfFields : List (String × Json) → Bool
  | [] => true
  | f :: fs => wfStr f.1 && wf f.2 && wfFields fs

end

mutual

/-- Fuel consumed parsing a value. -/
def size : Json → Nat
  | .null => 1
  | .bool _ => 1
  | .num _ => 1
  | .str _ => 1
  | .arr l => 1 + sizeElems l
  | .obj l => 1 + sizeFields l

/-- Fuel consumed parsing array elements. -/
def sizeElems : List Json → Nat
  | [] => 0
  | x :: xs => 1 + size x + sizeElems xs

/-- Fuel consumed parsing object entries. -/
def sizeFields : List (String × Json) → Nat
  | [] => 0
  | f :: fs => 1 + size f.2 + sizeFields fs

end

end Json

/-! ## The notebook built by `scripts/generate_docs.py` -/

namespace GenerateDocs

/-- The introduction markdown cell of `generate_docs.py`. -/
def introCell : Json :=
  Json.obj [
    ("cell_type", Json.str "markdown"),
    ("metadata", Json.obj []),
    ("source", Json.arr [
      Json.str "# PrefID Integration\n",
      Json.str "\n",
      Json.str "[PrefID](https://pref-id.vercel.app) provides identity-aware memory infrastructure for AI agents.\n",
      Json.str "It helps agents understand:\n",
      Json.str "- **WHAT** users like (content preferences)\n",
      Json.str "- **HOW** users want responses (thinking preferences / Atom of Thought)\n",
      Json.str "\n",
      Json.str "This integration allows LangChain agents to access and learn user preferences using standardized tools."])]

/-- The installation-heading markdown cell. -/
def installMdCell : Json :=
  Json.obj [
    ("cell_type", Json.str "markdown"),
    ("metadata", Json.obj []),
    ("source", Json.arr [
      Json.str "## Installation"])]

/-- The installation code cell (`%pip install …`). -/
def installCodeCell : Json :=
  Json.obj [
    ("cell_type", Json.str "code"),
    ("execution_count", Json.null),
    ("metadata", Json.obj []),
    ("outputs", Json.arr []),
    ("source", Json.arr [
      Json.str "%pip install -U langchain-prefid langchain-anthropic"])]

/-- The setup markdown cell. -/
def setupMdCell : Json :=
  Json.obj [
    ("cell_type", Json.str "markdown"),
    ("metadata", Json.obj []),
    ("source", Json.arr [
      Json.str "## Setup\n",
      Json.str "\n",
      Json.str "Get your Client ID from the [PrefID Dashboard](https://pref-id.vercel.app/dashboard)."])]

/-- The setup code cell (configuration and LLM construction). -/
def setupCodeCell : Json :=
  Json.obj [
    ("cell_type", Json.str "code"),
    ("execution_count", Json.null),
    ("metadata", Json.obj []),
    ("outputs", Json.arr []),
    ("source", Json.arr [
      Json.str "import os\n",
      Json.str "from langchain_prefid import create_prefid_tools\n",
      Json.str "from langchain_anthropic import ChatAnthropic\n",
      Json.str "from langchain.agents import create_tool_calling_agent, AgentExecutor\n",
      Json.str "from langchain_core.prompts import ChatPromptTemplate\n",
      Json.str "\n",
      Json.str "# Configuration\n",
      Json.str "# In production, use environment variables or OAuth flow\n",
      Json.str "CLIENT_ID = \"your-client-id\"\n",
      Json.str "ACCESS_TOKEN = \"user-access-token\" \n",
      Json.str "USER_ID = \"user_123\"\n",
      Json.str "\n",
      Json.str "# Initialize LLM\n",
      Json.str "llm = ChatAnthropic(model=\"claude-3-5-sonnet-20241022\", temperature=0)"])]

/-- The tool-creation markdown cell. -/
def toolsMdCell : Json :=
  Json.obj [
    ("cell_type", Json.str "markdown"),
    ("metadata", Json.obj []),
    ("source", Json.arr [
      Json.str "## Create Tools\n",
      Json.str "\n",
      Json.str "The `create_prefid_tools` helper creates a suite of tools for reading/writing preferences and introspection."])]

/-- The tool-creation code cell (`create_prefid_tools(…)`). -/
def toolsCodeCell : Json :=
  Json.obj [
    ("cell_type", Json.str "code"),
    ("execution_count", Json.null),
    ("metadata", Json.obj []),
    ("outputs", Json.arr []),
    ("source", Json.arr [
      Json.str "tools = create_prefid_tools(\n",
      Json.str "    client_id=CLIENT_ID,\n",
      Json.str "    access_token=ACCESS_TOKEN,\n",
      Json.str "    user_id=USER_ID\n",
      Json.str ")\n",
      Json.str "\n",
      Json.str "# View available tools\n",
      Json.str "for tool in tools:\n",
      Json.str "    print(f\"- \x7btool.name\x7d: \x7btool.description\x7d\")"])]

/-- The agent-construction markdown cell. -/
def agentMdCell : Json :=
  Json.obj [
    ("cell_type", Json.str "markdown"),
    ("metadata", Json.obj []),
    ("source", Json.arr [
      Json.str "## Create and Run Agent\n",
      Json.str "\n",
      Json.str "We\x27ll create an agent that recommends restaurants based on BOTH content preferences (food) AND thinking preferences (verbosity/style)."])]

/-- The agent-construction-and-run code cell. -/
def agentRunCodeCell : Json :=
  Json.obj [
    ("cell_type", Json.str "code"),
    ("execution_count", Json.null),
    ("metadata", Json.obj []),
    ("outputs", Json.arr []),
    ("source", Json.arr [
      Json.str "system_prompt = \"\"\"You are a helpful assistant.\n",
      Json.str "\n",
      Json.str "IMPORTANT: Before making recommendations:\n",
      Json.str "1. Call get_thinking_preferences to understand HOW the user wants responses (AoT)\n",
      Json.str "2. Call get_user_preferences with \x27food_profile\x27 to understand WHAT they like\n",
      Json.str "3. Structure your response according to their thinking preferences\n",
      Json.str "\n",
      Json.str "If the user asks why you\x27re responding a certain way, use explain_response_style.\n",
      Json.str "\"\"\"\n",
      Json.str "\n",
      Json.str "prompt = ChatPromptTemplate.from_messages([\n",
      Json.str "    (\"system\", system_prompt),\n",
      Json.str "    (\"placeholder\", \"\x7bchat_history\x7d\"),\n",
      Json.str "    (\"human\", \"\x7binput\x7d\"),\n",
      Json.str "    (\"placeholder\", \"\x7bagent_scratchpad\x7d\"),\n",
      Json.str "])\n",
      Json.str "\n",
      Json.str "agent = create_tool_calling_agent(llm, tools, prompt)\n",
      Json.str "executor = AgentExecutor(agent=agent, tools=tools, verbose=True)\n",
      Json.str "\n",
      Json.str "# Run the agent\n",
      Json.str "result = executor.invoke(\x7b\n",
      Json.str "    \"input\": \"Recommend a restaurant for date night\"\n",
      Json.str "\x7d)\n",
      Json.str "\n",
      Json.str "print(result[\x27output\x27])"])]

/-- The `cells` list of `generate_docs.py`: the nine notebook cells, in source order. -/
def cells : List Json :=
  [introCell, installMdCell, installCodeCell, setupMdCell, setupCodeCell, toolsMdCell, toolsCodeCell, agentMdCell, agentRunCodeCell]

/-- The `metadata` entry of the notebook structure `nb`. -/
def nbMetadata : Json :=
  Json.obj [
    ("kernelspec", Json.obj [
      ("display_name", Json.str "Python 3"),
      ("language", Json.str "python"),
      ("name", Json.str "python3")]),
    ("language_info", Json.obj [
      ("codemirror_mode", Json.obj [
        ("name", Json.str "ipython"),
        ("version", Json.num 3)]),
      ("file_extension", Json.str ".py"),
      ("mimetype", Json.str "text/x-python"),
      ("name", Json.str "python"),
      ("nbconvert_exporter", Json.str "python"),
      ("pygments_lexer", Json.str "ipython3"),
      ("version", Json.str "3.11.7")])]

/-- The notebook structure `nb` of `generate_docs.py`, serialized by `json.dump(nb, f, indent=2)`. -/
def nb : Json :=
  Json.obj [
    ("cells", Json.arr cells),
    ("metadata", nbMetadata),
    ("nbformat", Json.num 4),
    ("nbformat_minor", Json.num 5)]

end GenerateDocs
namespace Json

/-- Look up a key in an object's field list (first occurrence, as Python's
`json` produces and `dict` lookup uses for the keys at hand, which are
pairwise distinct). -/
def objLookup : List (String × Json) → String → Option Json
  | [], _ => none
  | (k, v) :: fs, key => if k = key then some v else objLookup fs key

/-- The cell list of a notebook document: its `"cells"` entry, which must be an
array. -/
def nbCells : Json → Option (List Json)
  | .obj fs =>
      match objLookup fs "cells" with
      | some (.arr l) => some l
      | _ => none
  | _ => none

/-- The `"cell_type"` entry of a cell, which must be a string. -/
def cellType : Json → Option String
  | .obj fs =>
      match objLookup fs "cell_type" with
      | some (.str s) => some s
      | _ => none
  | _ => none

end Json

/-! ## The publish script `scripts/push_to_hub.py` -/

namespace PushToHub

/-- The fixed namespace (LangSmith handle) both prompts are pushed under. -/
def HANDLE : String := "talentxmdu"

/-- A chat prompt template, as built by `ChatPromptTemplate.from_messages`:
an ordered list of (role, content) message pairs. -/
def Prompt := List (String × String)

/-- The system message of the restaurant-recommender prompt. -/
def restaurantSystem : String :=
  "You are a helpful restaurant recommendation assistant.\n\nIMPORTANT: Before making recommendations:\n1. Call get_thinking_preferences to understand HOW the user wants responses\n2. Call get_user_preferences with \x27food_profile\x27 to understand WHAT they like\n3. Structure your response according to their thinking preferences\n\nIf the user asks why you\x27re responding a certain way, use explain_response_style.\nIf the user tells you how they prefer responses, use learn_thinking_preference.\n"

/-- The restaurant-recommender prompt template (`restaurant_prompt`). -/
def restaurant_prompt : Prompt :=
  [("system", restaurantSystem),
   ("placeholder", "\x7bchat_history\x7d"),
   ("human", "\x7binput\x7d"),
   ("placeholder", "\x7bagent_scratchpad\x7d")]

/-- The system message of the basic-agent prompt. -/
def basicSystem : String :=
  "You are a helpful assistant with access to user preferences.\nUse the provided tools to personalize your responses based on user preferences.\n"

/-- The basic-agent prompt template (`basic_prompt`). -/
def basic_prompt : Prompt :=
  [("system", basicSystem),
   ("placeholder", "\x7bchat_history\x7d"),
   ("human", "\x7binput\x7d"),
   ("placeholder", "\x7bagent_scratchpad\x7d")]

/-- The registry name the first push targets. -/
def pushNameRestaurant : String := HANDLE ++ "/restaurant-recommender"

/-- The registry name the second push targets. -/
def pushNameBasic : String := HANDLE ++ "/basic-agent"

/-- Observable trace of one run of the script: lines printed to standard
output, push calls attempted (in order), pushes the registry actually received
(in order), and an exception escaping the whole script, if any. -/
structure RunResult where
  prints : List String
  attempts : List (String × Prompt)
  pushed : List (String × Prompt)
  uncaught : Option String

/-- A `try`/`except Exception as e` block: an exception raised by the body is
caught exactly once and turned into the handler's printed lines; nothing
propagates further. -/
def tryExcept (body : RunResult) (handler : String → List String) : RunResult :=
  match body.uncaught with
  | none => body
  | some e => { prints := body.prints ++ handler e
                attempts := body.attempts
                pushed := body.pushed
                uncaught := none }

/-- The body of the `try` block of `push_to_hub.py`, parameterised by an oracle
`pushOutcome` for the remote `hub.push` call (`none` = success, `some e` = the
call raises exception `e`): push the restaurant-recommender prompt, print a
success line, push the basic-agent prompt, print a success line, print the
final success message; a raise aborts the rest of the block. -/
def tryBody (pushOutcome : String → Option String) : RunResult :=
  match pushOutcome pushNameRestaurant with
  | some e =>
      { prints := []
        attempts := [(pushNameRestaurant, restaurant_prompt)]
        pushed := []
        uncaught := some e }
  | none =>
      match pushOutcome pushNameBasic with
      | some e =>
          { prints := ["✅ Pushed: " ++ pushNameRestaurant]
            attempts := [(pushNameRestaurant, restaurant_prompt), (pushNameBasic, basic_prompt)]
            pushed := [(pushNameRestaurant, restaurant_prompt)]
            uncaught := some e }
      | none =>
          { prints := ["✅ Pushed: " ++ pushNameRestaurant,
                       "✅ Pushed: " ++ pushNameBasic,
                       "\nSuccess! View at https://smith.langchain.com/hub/" ++ HANDLE]
            attempts := [(pushNameRestaurant, restaurant_prompt), (pushNameBasic, basic_prompt)]
            pushed := [(pushNameRestaurant, restaurant_prompt), (pushNameBasic, basic_prompt)]
            uncaught := none }

/-- The first line the except-handler prints for exception `e`. -/
def errorLine (e : String) : String := "\nError pushing to hub: " ++ e

/-- The `__main__` block of `push_to_hub.py`: a leading progress print, then
the try body wrapped in the single top-level exception handler, which prints
the error and a login hint. -/
def pushToHubMain (pushOutcome : String → Option String) : RunResult :=
  let body := tryBody pushOutcome
  tryExcept
    { prints := "Pushing prompts to LangSmith Hub..." :: body.prints
      attempts := body.attempts
      pushed := body.pushed
      uncaught := body.uncaught }
    (fun e => [errorLine e, "Did you login? Run: langchain hub login"])

/-- An oracle for `hub.push` under which the first push raises `"boom"`. -/
def oracleFailFirst : String → Option String :=
  fun n => if n = pushNameRestaurant then some "boom" else none

end PushToHub

/-! ## The preference-tool adapter (modelled from the spec)

`examples/restaurant_recommender.py` calls `create_prefid_tools(client_id,
access_token, user_id)` from the `langchain_prefid` package, which is not part
of this repository; only its caller is.  The adapter and the preference-storage
backend it talks to are therefore modelled from the specification (§3 data
model, §4.1 operation table, §7 error taxonomy). -/

namespace PrefID

/-- Modelled from the spec: the error taxonomy of §7 for the absent
`langchain_prefid` adapter — `AuthError` (invalid credential), `NotFoundError`
(no stored preference), `ValidationError` (malformed write input). -/
inductive PrefError where
  | authError
  | notFoundError (msg : String)
  | validationError (msg : String)

/-- Modelled from the spec: the `ToolCallCredential` plus user scope supplied
once at adapter construction — the `(client_id, access_token, user_id)` triple
of `create_prefid_tools`. -/
structure Credential where
  client_id : String
  access_token : String
  user_id : String

/-- Modelled from the spec: the state of the absent preference-storage backend.
`validTokens` is the set of accepted `(client_id, access_token)` pairs;
`contentPrefs` maps a `user_id` and a content domain (e.g. `"food_profile"`)
to a recorded key/value profile, if any; `thinkingPrefs` maps a `user_id` to
the recorded thinking/response-style preference descriptions, if any;
`lastStyle` maps a `user_id` to the last-used response-style snapshot, if any
prior interaction was recorded. -/
structure BackendState where
  validTokens : List (String × String)
  contentPrefs : String → String → Option (List (String × String))
  thinkingPrefs : String → Option (List String)
  lastStyle : String → Option String

/-- Modelled from the spec: whether a credential triple is valid against the
backend. -/
def credValid (s : BackendState) (c : Credential) : Bool :=
  s.validTokens.contains (c.client_id, c.access_token)

/-- Modelled from the spec: the acknowledgement record a successful learn
operation returns. -/
structure Ack where
  learned : String

/-- Modelled from the spec: the raw backend read of a user's content
preferences in one domain, which raises `NotFoundError` when no profile is
recorded there. -/
def backendGetContent (s : BackendState) (u domain : String) :
    Except PrefError (List (String × String)) :=
  match s.contentPrefs u domain with
  | none => .error (.notFoundError "no preferences recorded for this domain")
  | some m => .ok m

/-- Modelled from the spec: the raw backend read of a user's thinking
preferences, which raises `NotFoundError` when none are recorded. -/
def backendGetThinking (s : BackendState) (u : String) :
    Except PrefError (List String) :=
  match s.thinkingPrefs u with
  | none => .error (.notFoundError "no thinking preferences recorded")
  | some l => .ok l

/-- Modelled from the spec: the absent adapter operation
`get_user_preferences(domain)` — `AuthError` on an invalid token; a
`NotFoundError` from the backend is mapped to the empty mapping, not an
error. -/
def get_user_preferences (s : BackendState) (c : Credential) (domain : String) :
    Except PrefError (List (String × String)) :=
  if credValid s c then
    match backendGetContent s c.user_id domain with
    | .error (.notFoundError _) => .ok []
    | .error e => .error e
    | .ok m => .ok m
  else .error .authError

/-- Modelled from the spec: the absent adapter operation
`get_thinking_preferences()` — same failure mapping as the content read. -/
def get_thinking_preferences (s : BackendState) (c : Credential) :
    Except PrefError (List String) :=
  if credValid s c then
    match backendGetThinking s c.user_id with
    | .error (.notFoundError _) => .ok []
    | .error e => .error e
    | .ok l => .ok l
  else .error .authError

/-- Modelled from the spec: the absent adapter operation
`learn_thinking_preference(text)` — `ValidationError` on empty text, otherwise
an acknowledgement record and a backend state in which the text is appended to
the user's thinking-preference descriptions. -/
def learn_thinking_preference (s : BackendState) (c : Credential) (text : String) :
    Except PrefError (Ack × BackendState) :=
  if text = "" then .error (.validationError "preference text must be non-empty")
  else if credValid s c then
    .ok ({ learned := text },
         { validTokens := s.validTokens
           contentPrefs := s.contentPrefs
           thinkingPrefs := fun u =>
             if u = c.user_id then some (((s.thinkingPrefs u).getD []) ++ [text])
             else s.thinkingPrefs u
           lastStyle := s.lastStyle })
  else .error .authError

/-- Modelled from the spec: the absent adapter operation
`explain_response_style()` — `NotFoundError` when no prior interaction is
recorded for the user, otherwise a justification referencing the stored
snapshot. -/
def explain_response_style (s : BackendState) (c : Credential) :
    Except PrefError String :=
  if credValid s c then
    match s.lastStyle c.user_id with
    | none => .error (.notFoundError "no prior interaction recorded")
    | some snap => .ok ("Response style was driven by: " ++ snap)
  else .error .authError

/-- The four tool operations `create_prefid_tools` exposes, as a tagged union. -/
inductive ToolCall where
  | getPrefs (domain : String)
  | getThinking
  | learn (text : String)
  | explain

/-- The possible successful outputs of a tool call. -/
inductive ToolOutput where
  | prefs (m : List (String × String))
  | thinking (l : List String)
  | ack (a : Ack)
  | explanation (s : String)

/-- Modelled from the spec: one tool invocation against the backend — reads
leave the state unchanged, the learn operation is the only write, and a failed
call leaves the state unchanged. -/
def runCall (s : BackendState) (c : Credential) :
    ToolCall → Except PrefError ToolOutput × BackendState
  | .getPrefs domain =>
      (match get_user_preferences s c domain with
       | .ok m => .ok (.prefs m)
       | .error e => .error e, s)
  | .getThinking =>
      (match get_thinking_preferences s c with
       | .ok l => .ok (.thinking l)
       | .error e => .error e, s)
  | .learn text =>
      match learn_thinking_preference s c text with
      | .ok (a, s') => (.ok (.ack a), s')
      | .error e => (.error e, s)
  | .explain =>
      (match explain_response_style s c with
       | .ok msg => .ok (.explanation msg)
       | .error e => .error e, s)

/-- A concrete backend state used to instantiate the universally quantified
theorems: one valid credential pair, no recorded content or thinking
preferences, no recorded interaction. -/
def sampleState : BackendState :=
  { validTokens := [("client-1", "token-1")]
    contentPrefs := fun _ _ => none
    thinkingPrefs := fun _ => none
    lastStyle := fun _ => none }

/-- The credential triple matching `sampleState`. -/
def sampleCred : Credential :=
  { client_id := "client-1", access_token := "token-1", user_id := "user_123" }

/-- A credential triple whose token `sampleState` does not accept. -/
def badCred : Credential :=
  { client_id := "client-1", access_token := "wrong-token", user_id := "user_123" }

/-- `sampleState` with thinking preferences recorded for every user: it agrees
with `sampleState` on the content domain but not on the thinking domain. -/
def sampleStateThinking : BackendState :=
  { validTokens := [("client-1", "token-1")]
    contentPrefs := fun _ _ => none
    thinkingPrefs := fun _ => some ["prefer concise answers"]
    lastStyle := fun _ => none }

/-- The preference text of the write-then-read scenario in the specification. -/
def samplePreferenceText : String :=
  "prefer one clear recommendation over multiple options"

end PrefID

/-! ## Round-trip lemmas for the JSON embedding -/

namespace Json

theorem digitChar_isDigit : ∀ m, m < 10 → isDigit (digitChar m) = true := by decide

theorem digitChar_toNat : ∀ m, m < 10 → (digitChar m).toNat = 48 + m := by decide

theorem hexVal_hexDigit : ∀ m, m < 16 → hexVal (hexDigit m) = some m := by decide

theorem isDigit_toNat {c : Char} (h : isDigit c = true) : 48 ≤ c.toNat ∧ c.toNat ≤ 57 := by
  simpa [isDigit] using h

theorem isDigit_facts {c : Char} (h : isDigit c = true) :
    c ≠ '"' ∧ c ≠ '[' ∧ c ≠ lbrace ∧ c ≠ ']' ∧ c ≠ rbrace ∧ isWs c = false := by
  refine ⟨?_, ?_, ?_, ?_, ?_, ?_⟩
  · rintro rfl; exact absurd h (by decide)
  · rintro rfl; exact absurd h (by decide)
  · rintro rfl; exact absurd h (by decide)
  · rintro rfl; exact absurd h (by decide)
  · rintro rfl; exact absurd h (by decide)
  · obtain ⟨h₁, h₂⟩ := isDigit_toNat h
    simp only [isWs, Bool.or_eq_false_iff, decide_eq_false_iff_not]
    refine ⟨⟨⟨?_, ?_⟩, ?_⟩, ?_⟩ <;> (rintro rfl; exact absurd h (by decide))

theorem skipWs_cons_of {c : Char} (h : isWs c = false) (cs : List Char) :
    skipWs (c :: cs) = c :: cs := by
  simp [skipWs, h]

theorem skipWs_ws_cons {c : Char} (h : isWs c = true) (cs : List Char) :
    skipWs (c :: cs) = skipWs cs := by
  simp [skipWs, h]

theorem skipWs_replicate (n : Nat) (cs : List Char) :
    skipWs (List.replicate n ' ' ++ cs) = skipWs cs := by
  induction n with
  | zero => simp
  | succ n ih => simpa [List.replicate_succ, skipWs_ws_cons (by decide : isWs ' ' = true)] using ih

theorem skipWs_nl (ind : Nat) (cs : List Char) :
    skipWs (nl ind ++ cs) = skipWs cs := by
  simp [nl, skipWs_ws_cons (by decide : isWs '\n' = true), skipWs_replicate]

theorem natDigitsAux_cons : ∀ fuel n, ∃ c t,
    natDigitsAux (fuel + 1) n = c :: t ∧ isDigit c = true := by
  intro fuel
  induction fuel with
  | zero =>
      intro n
      by_cases h : n < 10
      · exact ⟨digitChar n, [], by simp [natDigitsAux, h], digitChar_isDigit n h⟩
      · refine ⟨digitChar (n % 10), [], by simp [natDigitsAux, h], ?_⟩
        exact digitChar_isDigit _ (Nat.mod_lt _ (by norm_num))
  | succ fuel ih =>
      intro n
      by_cases h : n < 10
      · exact ⟨digitChar n, [], by simp [natDigitsAux, h], digitChar_isDigit n h⟩
      · obtain ⟨c, t, he, hd⟩ := ih (n / 10)
        refine ⟨c, t ++ [digitChar (n % 10)], ?_, hd⟩
        rw [show natDigitsAux (fuel + 1 + 1) n
              = natDigitsAux (fuel + 1) (n / 10) ++ [digitChar (n % 10)] by
            simp [natDigitsAux, h], he]
        simp

theorem renderNat_cons (n : Nat) : ∃ c t, renderNat n = c :: t ∧ isDigit c = true :=
  natDigitsAux_cons n n

theorem parseNatAux_stop {rest : List Char} (h : noDigitHead rest = true) (acc : Nat) :
    parseNatAux acc rest = (acc, rest) := by
  cases rest with
  | nil => rfl
  | cons c cs =>
      have : isDigit c = false := by simpa [noDigitHead] using h
      simp [parseNatAux, this]

theorem parseNatAux_natDigitsAux : ∀ fuel n, n < fuel → ∀ acc rest,
    parseNatAux acc (natDigitsAux fuel n ++ rest)
      = parseNatAux (acc * 10 ^ (natDigitsAux fuel n).length + n) rest := by
  intro fuel
  induction fuel with
  | zero => intro n h; omega
  | succ fuel ih =>
      intro n h acc rest
      by_cases h10 : n < 10
      · simp [natDigitsAux, h10, parseNatAux, digitChar_isDigit n h10,
              digitChar_toNat n h10]
      · have hlt : n / 10 < fuel := by omega
        have hmod : (digitChar (n % 10)).toNat = 48 + n % 10 :=
          digitChar_toNat _ (Nat.mod_lt _ (by norm_num))
        have hdig : isDigit (digitChar (n % 10)) = true :=
          digitChar_isDigit _ (Nat.mod_lt _ (by norm_num))
        simp only [natDigitsAux, h10, if_false, List.append_assoc, List.cons_append,
          List.nil_append]
        rw [ih (n / 10) hlt acc (digitChar (n % 10) :: rest)]
        simp only [parseNatAux, hdig, if_true, hmod, List.length_append, List.length_cons,
          List.length_nil]
        congr 1
        have hpow : 10 ^ ((natDigitsAux fuel (n / 10)).length + 1)
            = 10 ^ (natDigitsAux fuel (n / 10)).length * 10 := by
          rw [pow_succ]
        rw [hpow]
        have := Nat.div_add_mod n 10
        ring_nf
        omega

end Json

namespace Json

theorem parseStrBody_escChar {c : Char} (hc : c.toNat < 65536) (fuel : Nat)
    (rest : List Char) :
    parseStrBody (fuel + 1) (escChar c ++ rest)
      = (fun r => (c :: r.1, r.2)) <$> parseStrBody fuel rest := by
  by_cases h₁ : c = '\\'
  · subst h₁; simp only [escChar, if_pos rfl, List.cons_append, List.nil_append, parseStrBody]
    rfl
  by_cases h₂ : c = '"'
  · subst h₂
    simp only [escChar, if_neg (by decide : ¬ ('"' : Char) = '\\'), if_pos rfl,
      List.cons_append, List.nil_append, parseStrBody]
    rfl
  by_cases h₃ : c = '\n'
  · subst h₃
    simp only [escChar, if_neg (by decide : ¬ ('\n' : Char) = '\\'),
      if_neg (by decide : ¬ ('\n' : Char) = '"'), if_pos rfl,
      List.cons_append, List.nil_append, parseStrBody]
    rfl
  by_cases h₄ : c = '\t'
  · subst h₄
    simp only [escChar, if_neg (by decide : ¬ ('\t' : Char) = '\\'),
      if_neg (by decide : ¬ ('\t' : Char) = '"'), if_neg (by decide : ¬ ('\t' : Char) = '\n'),
      if_pos rfl, List.cons_append, List.nil_append, parseStrBody]
    rfl
  by_cases h₅ : c = '\r'
  · subst h₅
    simp only [escChar, if_neg (by decide : ¬ ('\r' : Char) = '\\'),
      if_neg (by decide : ¬ ('\r' : Char) = '"'), if_neg (by decide : ¬ ('\r' : Char) = '\n'),
      if_neg (by decide : ¬ ('\r' : Char) = '\t'), if_pos rfl,
      List.cons_append, List.nil_append, parseStrBody]
    rfl
  by_cases h₆ : c.toNat < 32 ∨ c.toNat > 126
  · have e₁ : hexVal (hexDigit (c.toNat / 4096 % 16)) = some (c.toNat / 4096 % 16) :=
      hexVal_hexDigit _ (Nat.mod_lt _ (by norm_num))
    have e₂ : hexVal (hexDigit (c.toNat / 256 % 16)) = some (c.toNat / 256 % 16) :=
      hexVal_hexDigit _ (Nat.mod_lt _ (by norm_num))
    have e₃ : hexVal (hexDigit (c.toNat / 16 % 16)) = some (c.toNat / 16 % 16) :=
      hexVal_hexDigit _ (Nat.mod_lt _ (by norm_num))
    have e₄ : hexVal (hexDigit (c.toNat % 16)) = some (c.toNat % 16) :=
      hexVal_hexDigit _ (Nat.mod_lt _ (by norm_num))
    have hval : c.toNat / 4096 % 16 * 4096 + c.toNat / 256 % 16 * 256
        + c.toNat / 16 % 16 * 16 + c.toNat % 16 = c.toNat := by omega
    simp only [escChar, if_neg h₁, if_neg h₂, if_neg h₃, if_neg h₄, if_neg h₅, if_pos h₆,
      List.cons_append, List.nil_append, parseStrBody,
      if_neg (by decide : ¬ ('\\' : Char) = '"'), if_pos rfl, e₁, e₂, e₃, e₄]
    rw [hval, Char.ofNat_toNat]
    simp
  · have h₇ : ¬ c.toNat < 32 := by omega
    simp only [escChar, if_neg h₁, if_neg h₂, if_neg h₃, if_neg h₄, if_neg h₅, if_neg h₆,
      List.cons_append, List.nil_append, parseStrBody, if_neg h₂, if_neg h₁, if_neg h₇]

theorem parseStrBody_render : ∀ (l : List Char), (∀ c ∈ l, c.toNat < 65536) →
    ∀ fuel rest, l.length < fuel →
      parseStrBody fuel (l.flatMap escChar ++ '"' :: rest) = some (l, rest) := by
  intro l
  induction l with
  | nil =>
      intro _ fuel rest hf
      obtain ⟨g, rfl⟩ : ∃ g, fuel = g + 1 := ⟨fuel - 1, by omega⟩
      simp [parseStrBody]
  | cons c cs ih =>
      intro h fuel rest hf
      obtain ⟨g, rfl⟩ : ∃ g, fuel = g + 1 := ⟨fuel - 1, by omega⟩
      have hc : c.toNat < 65536 := h c (by simp)
      rw [List.flatMap_cons, List.append_assoc, parseStrBody_escChar hc,
        ih (fun x hx => h x (by simp [hx])) g rest (by simpa using hf)]
      rfl

end Json

namespace Json

theorem render_head (ind : Nat) (j : Json) :
    ∃ c t, render ind j = c :: t ∧ isWs c = false ∧ c ≠ ']' ∧ c ≠ rbrace := by
  cases j with
  | null => refine ⟨'n', _, rfl, ?_, ?_, ?_⟩ <;> decide
  | bool b =>
      cases b with
      | true => refine ⟨'t', _, rfl, ?_, ?_, ?_⟩ <;> decide
      | false => refine ⟨'f', _, rfl, ?_, ?_, ?_⟩ <;> decide
  | num n =>
      obtain ⟨c, t, he, hd⟩ := renderNat_cons n
      obtain ⟨_, _, _, h4, h5, h6⟩ := isDigit_facts hd
      exact ⟨c, t, by simp [render, he], h6, h4, h5⟩
  | str s =>
      exact ⟨'"', s.data.flatMap escChar ++ ['"'], rfl, by decide, by decide, by decide⟩
  | arr l =>
      cases l with
      | nil => exact ⟨'[', _, rfl, by decide, by decide, by decide⟩
      | cons x xs =>
          exact ⟨'[', nl (ind + 2) ++ render (ind + 2) x ++ renderArrTail (ind + 2) xs
            ++ nl ind ++ [']'], rfl, by decide, by decide, by decide⟩
  | obj l =>
      cases l with
      | nil => exact ⟨lbrace, _, rfl, by decide, by decide, by decide⟩
      | cons f fs =>
          exact ⟨lbrace, nl (ind + 2) ++ renderField (ind + 2) f ++ renderObjTail (ind + 2) fs
            ++ nl ind ++ [rbrace], rfl, by decide, by decide, by decide⟩

theorem skipWs_render (ind : Nat) (j : Json) (rest : List Char) :
    skipWs (render ind j ++ rest) = render ind j ++ rest := by
  obtain ⟨c, t, he, hw, _, _⟩ := render_head ind j
  rw [he, List.cons_append, skipWs_cons_of hw]

theorem skipWs_renderField (ind : Nat) (f : String × Json) (rest : List Char) :
    skipWs (renderField ind f ++ rest) = renderField ind f ++ rest := by
  simp only [renderField, renderStr, List.cons_append, List.append_assoc]
  exact skipWs_cons_of (by decide) _

theorem noDigitHead_renderArrTail (ind outerInd : Nat) (xs : List Json) (l : List Char) :
    noDigitHead (renderArrTail ind xs ++ (nl outerInd ++ l)) = true := by
  cases xs <;> simp [renderArrTail, nl, noDigitHead, isDigit]

theorem noDigitHead_renderObjTail (ind outerInd : Nat) (fs : List (String × Json))
    (l : List Char) :
    noDigitHead (renderObjTail ind fs ++ (nl outerInd ++ l)) = true := by
  cases fs with
  | nil => simp [renderObjTail, nl, noDigitHead, isDigit]
  | cons f fs => simp [renderObjTail, noDigitHead, isDigit]

theorem one_le_size (j : Json) : 1 ≤ size j := by
  cases j <;> simp [size]

end Json

namespace Json

mutual

theorem size_le_render (j : Json) (ind : Nat) : size j ≤ (render ind j).length := by
  cases j with
  | null => simp [size, render]
  | bool b => cases b <;> simp [size, render]
  | num n =>
      obtain ⟨c, t, he, _⟩ := renderNat_cons n
      simp [size, render, he]
  | str s => simp [size, render, renderStr]
  | arr l =>
      cases l with
      | nil => simp [size, sizeElems, render]
      | cons x xs =>
          have h₁ := size_le_render x (ind + 2)
          have h₂ := sizeElems_le_renderArrTail xs (ind + 2)
          simp only [size, sizeElems, render, List.length_cons, List.length_append, nl,
            List.length_replicate]
          omega
  | obj l =>
      cases l with
      | nil => simp [size, sizeFields, render]
      | cons f fs =>
          have h₁ := size_le_render f.2 (ind + 2)
          have h₂ := sizeFields_le_renderObjTail fs (ind + 2)
          simp only [size, sizeFields, render, renderField, renderStr, List.length_cons,
            List.length_append, nl, List.length_replicate]
          omega

theorem sizeElems_le_renderArrTail (xs : List Json) (ind : Nat) :
    sizeElems xs ≤ (renderArrTail ind xs).length := by
  cases xs with
  | nil => simp [sizeElems, renderArrTail]
  | cons x xs =>
      have h₁ := size_le_render x ind
      have h₂ := sizeElems_le_renderArrTail xs ind
      simp only [sizeElems, renderArrTail, List.length_cons, List.length_append, nl,
        List.length_replicate]
      omega

theorem sizeFields_le_renderObjTail (fs : List (String × Json)) (ind : Nat) :
    sizeFields fs ≤ (renderObjTail ind fs).length := by
  cases fs with
  | nil => simp [sizeFields, renderObjTail]
  | cons f fs =>
      have h₁ := size_le_render f.2 ind
      have h₂ := sizeFields_le_renderObjTail fs ind
      simp only [sizeFields, renderObjTail, renderField, renderStr, List.length_cons,
        List.length_append, nl, List.length_replicate]
      omega

end

end Json

namespace Json

theorem one_le_length_escChar (c : Char) : 1 ≤ (escChar c).length := by
  unfold escChar
  split_ifs <;> simp

theorem length_le_flatMap_escChar (l : List Char) :
    l.length ≤ (l.flatMap escChar).length := by
  induction l with
  | nil => simp
  | cons c cs ih =>
      have := one_le_length_escChar c
      simp only [List.flatMap_cons, List.length_append, List.length_cons]
      omega

end Json

namespace Json

mutual

theorem parseVal_render (j : Json) (hw : wf j = true) (fuel : Nat) (hf : size j ≤ fuel)
    (ind : Nat) (rest cs : List Char) (hrest : noDigitHead rest = true)
    (hcs : skipWs cs = render ind j ++ rest) :
    parseVal fuel cs = some (j, rest) := by
  obtain ⟨g, rfl⟩ : ∃ g, fuel = g + 1 :=
    ⟨fuel - 1, by have := one_le_size j; omega⟩
  cases j with
  | null =>
      have hcs' : skipWs cs = 'n' :: 'u' :: 'l' :: 'l' :: rest := by simpa [render] using hcs
      simp only [parseVal, hcs']
      rfl
  | bool b =>
      cases b with
      | true =>
          have hcs' : skipWs cs = 't' :: 'r' :: 'u' :: 'e' :: rest := by simpa [render] using hcs
          simp only [parseVal, hcs']
          rfl
      | false =>
          have hcs' : skipWs cs = 'f' :: 'a' :: 'l' :: 's' :: 'e' :: rest := by
            simpa [render] using hcs
          simp only [parseVal, hcs']
          rfl
  | num n =>
      obtain ⟨c, t, he, hd⟩ := renderNat_cons n
      obtain ⟨hq, hlb, hob, _, _, _⟩ := isDigit_facts hd
      have hcs' : skipWs cs = c :: (t ++ rest) := by
        rw [hcs]; simp [render, he]
      simp only [parseVal, hcs']
      rw [if_neg hq, if_neg hlb, if_neg hob, if_pos hd]
      rw [show c :: (t ++ rest) = renderNat n ++ rest by rw [← List.cons_append, ← he]]
      rw [renderNat, parseNatAux_natDigitsAux (n + 1) n (by omega) 0 rest]
      simp only [Nat.zero_mul, Nat.zero_add]
      rw [parseNatAux_stop hrest]
  | str s =>
      have hcs' : skipWs cs = '"' :: (s.data.flatMap escChar ++ '"' :: rest) := by
        rw [hcs]; simp [render, renderStr]
      have hwf : ∀ c ∈ s.data, c.toNat < 65536 := by
        intro c hcm
        have := (by simpa [wf, wfStr, List.all_eq_true] using hw : _)
        simpa using this c hcm
      simp only [parseVal, hcs']
      rw [parseStrBody_render s.data hwf _ _
        (by have h1 := length_le_flatMap_escChar s.data
            simp only [List.length_append, List.length_cons]
            omega)]
      cases s
      rfl
  | arr l =>
      cases l with
      | nil =>
          have hcs' : skipWs cs = '[' :: ']' :: rest := by simpa [render] using hcs
          simp only [parseVal, hcs']
          rfl
      | cons x xs =>
          have hx : wf x = true ∧ wfElems xs = true := by
            simpa [wf, wfElems, Bool.and_eq_true] using hw
          have hcs' : skipWs cs
              = '[' :: (nl (ind + 2) ++ (render (ind + 2) x ++ (renderArrTail (ind + 2) xs
                  ++ (nl ind ++ (']' :: rest))))) := by
            rw [hcs]; simp [render, List.append_assoc]
          obtain ⟨cx, tx, hex, hwx, hnrs, hnrb⟩ := render_head (ind + 2) x
          have hinner : skipWs (nl (ind + 2) ++ (render (ind + 2) x ++ (renderArrTail (ind + 2) xs
              ++ (nl ind ++ (']' :: rest)))))
              = cx :: (tx ++ (renderArrTail (ind + 2) xs ++ (nl ind ++ (']' :: rest)))) := by
            rw [skipWs_nl, hex, List.cons_append, skipWs_cons_of hwx]
          simp only [parseVal, hcs', hinner]
          rw [if_neg hnrs]
          rw [parseElems_render x xs hx.1 hx.2 g (by simp [size] at hf; omega) (ind + 2) ind
            rest _ hrest (by rw [skipWs_cons_of hwx, ← List.cons_append, ← hex])]
          rfl
  | obj l =>
      cases l with
      | nil =>
          have hcs' : skipWs cs = lbrace :: rbrace :: rest := by simpa [render] using hcs
          simp only [parseVal, hcs']
          rfl
      | cons f fs =>
          have hx : wfStr f.1 = true ∧ wf f.2 = true ∧ wfFields fs = true := by
            simpa [wf, wfFields, Bool.and_eq_true, and_assoc] using hw
          have hcs' : skipWs cs
              = lbrace :: (nl (ind + 2) ++ (renderField (ind + 2) f
                  ++ (renderObjTail (ind + 2) fs ++ (nl ind ++ (rbrace :: rest))))) := by
            rw [hcs]; simp [render, List.append_assoc]
          have hfieldhead : renderField (ind + 2) f
              ++ (renderObjTail (ind + 2) fs ++ (nl ind ++ (rbrace :: rest)))
              = '"' :: (f.1.data.flatMap escChar ++ ['"'] ++ (':' :: ' ' :: render (ind + 2) f.2
                  ++ (renderObjTail (ind + 2) fs ++ (nl ind ++ (rbrace :: rest))))) := by
            simp [renderField, renderStr, List.append_assoc]
          have hinner : skipWs (nl (ind + 2) ++ (renderField (ind + 2) f
              ++ (renderObjTail (ind + 2) fs ++ (nl ind ++ (rbrace :: rest)))))
              = '"' :: (f.1.data.flatMap escChar ++ ['"'] ++ (':' :: ' ' :: render (ind + 2) f.2
                  ++ (renderObjTail (ind + 2) fs ++ (nl ind ++ (rbrace :: rest))))) := by
            rw [skipWs_nl, skipWs_renderField]
            exact hfieldhead
          simp only [parseVal, hcs', hinner]
          rw [if_neg (by decide)]
          rw [parseFields_render f fs hx.1 hx.2.1 hx.2.2 g (by simp [size] at hf; omega)
            (ind + 2) ind rest _ hrest
            (by rw [skipWs_cons_of (by decide), ← hfieldhead])]
          rfl
termination_by sizeOf j
decreasing_by all_goals (subst_vars; simp <;> omega)

theorem parseElems_render (x : Json) (xs : List Json) (hw : wf x = true)
    (hws : wfElems xs = true) (fuel : Nat) (hf : sizeElems (x :: xs) ≤ fuel)
    (ind outerInd : Nat) (rest cs : List Char) (hrest : noDigitHead rest = true)
    (hcs : skipWs cs = render ind x ++ (renderArrTail ind xs
      ++ (nl outerInd ++ (']' :: rest)))) :
    parseElems fuel cs = some (x :: xs, rest) := by
  obtain ⟨g, rfl⟩ : ∃ g, fuel = g + 1 :=
    ⟨fuel - 1, by simp [sizeElems] at hf; omega⟩
  have hval : parseVal g cs
      = some (x, renderArrTail ind xs ++ (nl outerInd ++ (']' :: rest))) := by
    refine parseVal_render x hw g (by simp [sizeElems] at hf; omega) ind _ cs
      (noDigitHead_renderArrTail ind outerInd xs _) ?_
    rw [hcs]
  simp only [parseElems, hval]
  cases xs with
  | nil =>
      have h0 : skipWs (renderArrTail ind ([] : List Json) ++ (nl outerInd ++ (']' :: rest)))
          = ']' :: rest := by
        simp only [renderArrTail, List.nil_append, skipWs_nl]
        exact skipWs_cons_of (by decide) _
      rw [h0]
      rfl
  | cons y ys =>
      have hys : wf y = true ∧ wfElems ys = true := by
        simpa [wfElems, Bool.and_eq_true] using hws
      have h1 : skipWs (renderArrTail ind (y :: ys) ++ (nl outerInd ++ (']' :: rest)))
          = ',' :: (nl ind ++ (render ind y ++ (renderArrTail ind ys
              ++ (nl outerInd ++ (']' :: rest))))) := by
        rw [show renderArrTail ind (y :: ys) ++ (nl outerInd ++ (']' :: rest))
            = ',' :: (nl ind ++ (render ind y ++ (renderArrTail ind ys
                ++ (nl outerInd ++ (']' :: rest))))) by
          simp [renderArrTail, List.append_assoc]]
        exact skipWs_cons_of (by decide) _
      have hrec : parseElems g (nl ind ++ (render ind y ++ (renderArrTail ind ys
          ++ (nl outerInd ++ (']' :: rest))))) = some (y :: ys, rest) :=
        parseElems_render y ys hys.1 hys.2 g (by simp [sizeElems] at hf ⊢; omega) ind outerInd
          rest _ hrest (by rw [skipWs_nl, skipWs_render])
      simp only [h1, hrec]
      rfl
termination_by 1 + sizeOf x + sizeOf xs
decreasing_by all_goals (subst_vars; simp <;> omega)

theorem parseFields_render (f : String × Json) (fs : List (String × Json))
    (hk : wfStr f.1 = true) (hv : wf f.2 = true) (hfs : wfFields fs = true) (fuel : Nat)
    (hf : sizeFields (f :: fs) ≤ fuel) (ind outerInd : Nat) (rest cs : List Char)
    (hrest : noDigitHead rest = true)
    (hcs : skipWs cs = renderField ind f ++ (renderObjTail ind fs
      ++ (nl outerInd ++ (rbrace :: rest)))) :
    parseFields fuel cs = some (f :: fs, rest) := by
  obtain ⟨g, rfl⟩ : ∃ g, fuel = g + 1 :=
    ⟨fuel - 1, by simp [sizeFields] at hf; omega⟩
  have hkdata : ∀ c ∈ f.1.data, c.toNat < 65536 := by
    intro c hcm
    have := (by simpa [wfStr, List.all_eq_true] using hk : _)
    simpa using this c hcm
  have hcs' : skipWs cs = '"' :: (f.1.data.flatMap escChar
      ++ '"' :: (':' :: ' ' :: render ind f.2 ++ (renderObjTail ind fs
        ++ (nl outerInd ++ (rbrace :: rest))))) := by
    rw [hcs]; simp [renderField, renderStr, List.append_assoc]
  simp only [parseFields, hcs']
  rw [parseStrBody_render f.1.data hkdata _ _
    (by have h1 := length_le_flatMap_escChar f.1.data
        simp only [List.length_append, List.length_cons]
        omega)]
  have hskip : skipWs (':' :: ' ' :: render ind f.2 ++ (renderObjTail ind fs
      ++ (nl outerInd ++ (rbrace :: rest))))
      = ':' :: (' ' :: render ind f.2 ++ (renderObjTail ind fs
        ++ (nl outerInd ++ (rbrace :: rest)))) :=
    skipWs_cons_of (by decide) _
  have hvval : parseVal g (' ' :: render ind f.2 ++ (renderObjTail ind fs
      ++ (nl outerInd ++ (rbrace :: rest))))
      = some (f.2, renderObjTail ind fs ++ (nl outerInd ++ (rbrace :: rest))) := by
    refine parseVal_render f.2 hv g (by simp [sizeFields] at hf; omega) ind _ _
      (noDigitHead_renderObjTail ind outerInd fs _) ?_
    rw [List.cons_append, skipWs_ws_cons (by decide), skipWs_render]
  simp only [hskip, hvval]
  cases fs with
  | nil =>
      have h0 : skipWs (renderObjTail ind ([] : List (String × Json))
          ++ (nl outerInd ++ (rbrace :: rest))) = rbrace :: rest := by
        simp only [renderObjTail, List.nil_append, skipWs_nl]
        exact skipWs_cons_of (by decide) _
      simp only [h0]
      obtain ⟨k, v⟩ := f
      cases k
      rfl
  | cons f₂ fs₂ =>
      have hf₂ : wfStr f₂.1 = true ∧ wf f₂.2 = true ∧ wfFields fs₂ = true := by
        simpa [wfFields, Bool.and_eq_true, and_assoc] using hfs
      have h1 : skipWs (renderObjTail ind (f₂ :: fs₂) ++ (nl outerInd ++ (rbrace :: rest)))
          = ',' :: (nl ind ++ (renderField ind f₂ ++ (renderObjTail ind fs₂
              ++ (nl outerInd ++ (rbrace :: rest))))) := by
        rw [show renderObjTail ind (f₂ :: fs₂) ++ (nl outerInd ++ (rbrace :: rest))
            = ',' :: (nl ind ++ (renderField ind f₂ ++ (renderObjTail ind fs₂
                ++ (nl outerInd ++ (rbrace :: rest))))) by
          simp [renderObjTail, List.append_assoc]]
        exact skipWs_cons_of (by decide) _
      have hrec : parseFields g (nl ind ++ (renderField ind f₂ ++ (renderObjTail ind fs₂
          ++ (nl outerInd ++ (rbrace :: rest))))) = some (f₂ :: fs₂, rest) :=
        parseFields_render f₂ fs₂ hf₂.1 hf₂.2.1 hf₂.2.2 g
          (by simp [sizeFields] at hf ⊢; omega) ind outerInd rest _ hrest
          (by rw [skipWs_nl, skipWs_renderField])
      simp only [h1, hrec]
      obtain ⟨k, v⟩ := f
      cases k
      rfl
termination_by 1 + sizeOf f + sizeOf fs
decreasing_by all_goals (subst_vars; try obtain ⟨k0, v0⟩ := f; simp <;> omega)

end

end Json

namespace Json

theorem loads_dumps {j : Json} (h : wf j = true) : loads (dumps j) = some j := by
  have hp : parseVal (2 * (dumps j).length + 2) (dumps j).data = some (j, []) := by
    refine parseVal_render j h _ ?_ 0 [] _ rfl ?_
    · have h1 := size_le_render j 0
      have hl : (dumps j).length = (render 0 j).length := rfl
      omega
    · show skipWs (render 0 j) = render 0 j ++ []
      have h2 := skipWs_render 0 j []
      rwa [List.append_nil] at h2 ⊢
  simp only [loads, hp]
  rfl

end Json

/-! ## Claims about the generated notebook (`scripts/generate_docs.py`) -/

namespace GenerateDocs

theorem nb_loads_dumps : Json.loads (Json.dumps nb) = some nb :=
  Json.loads_dumps (by decide)

/-- Claim C1: the notebook document built by `generate_docs.py` is valid
structured JSON (serializing it and parsing the result succeeds), and its
cells are exactly the fixed nine-cell sequence — introduction markdown,
installation markdown, installation code, setup markdown, setup code,
tool-creation markdown, tool-creation code, agent-construction markdown,
agent-run code — in that order, and no others. -/
theorem notebook_cells_exact_sequence :
    (Json.loads (Json.dumps nb)).isSome = true ∧
    Json.nbCells nb = some cells ∧
    cells = [introCell, installMdCell, installCodeCell, setupMdCell, setupCodeCell,
      toolsMdCell, toolsCodeCell, agentMdCell, agentRunCodeCell] ∧
    cells.length = 9 ∧
    cells.map Json.cellType =
      [some "markdown", some "markdown", some "code", some "markdown", some "code",
       some "markdown", some "code", some "markdown", some "code"] :=
  ⟨by rw [nb_loads_dumps]; rfl, rfl, rfl, rfl, rfl⟩

/-- Claim C2: serializing the generated notebook structure to JSON, parsing it
back, and re-serializing yields a document with the same cell count and the
same cell ordering as the original — the notebook round-trips through JSON
(in fact the parse returns the notebook itself). -/
theorem notebook_json_roundtrip :
    ∃ j, Json.loads (Json.dumps nb) = some j ∧
      Json.dumps j = Json.dumps nb ∧
      (Json.nbCells j).map List.length = (Json.nbCells nb).map List.length ∧
      Json.nbCells j = Json.nbCells nb :=
  ⟨nb, nb_loads_dumps, rfl, rfl, rfl⟩

end GenerateDocs

/-! ## Claims about the publish script (`scripts/push_to_hub.py`) -/

namespace PushToHub

/-- Claim C3: the publish script pushes exactly two string-keyed prompt
templates (`restaurant-recommender` and `basic-agent`) under the one fixed
namespace `talentxmdu`, each attempted at most once and in that order (no
retry); every failure of either push is caught once at the top-level script
boundary — no exception escapes the script — and is reported by printing the
error line to standard output. -/
theorem push_script_two_pushes_single_handler (o : String → Option String) :
    (pushToHubMain o).uncaught = none ∧
    ((pushToHubMain o).attempts = [(pushNameRestaurant, restaurant_prompt)] ∨
      (pushToHubMain o).attempts
        = [(pushNameRestaurant, restaurant_prompt), (pushNameBasic, basic_prompt)]) ∧
    (o pushNameRestaurant = none → o pushNameBasic = none →
      (pushToHubMain o).pushed
        = [(pushNameRestaurant, restaurant_prompt), (pushNameBasic, basic_prompt)]) ∧
    (∀ e, o pushNameRestaurant = some e → errorLine e ∈ (pushToHubMain o).prints) ∧
    (∀ e, o pushNameRestaurant = none → o pushNameBasic = some e →
      errorLine e ∈ (pushToHubMain o).prints) := by
  cases h₁ : o pushNameRestaurant with
  | some e => simp [pushToHubMain, tryBody, tryExcept, h₁]
  | none =>
      cases h₂ : o pushNameBasic with
      | some e => simp [pushToHubMain, tryBody, tryExcept, h₁, h₂]
      | none => simp [pushToHubMain, tryBody, tryExcept, h₁, h₂]

/-- Witness for C3: under an oracle that makes the first push raise `"boom"`,
the script still terminates normally and the error line is printed. -/
theorem push_script_two_pushes_single_handler_witness :
    (pushToHubMain oracleFailFirst).uncaught = none ∧
    errorLine "boom" ∈ (pushToHubMain oracleFailFirst).prints :=
  ⟨(push_script_two_pushes_single_handler oracleFailFirst).1,
   (push_script_two_pushes_single_handler oracleFailFirst).2.2.2.1 "boom"
     (by simp [oracleFailFirst])⟩

/-- Claim C10: the two pushes are ordered inside one `try` block — if the push
of the restaurant-recommender prompt raises, the basic-agent prompt is never
pushed in that run, and the registry receives nothing (no template was pushed
before the failure). -/
theorem first_push_failure_stops_second (o : String → Option String) (e : String)
    (h : o pushNameRestaurant = some e) :
    (pushToHubMain o).attempts = [(pushNameRestaurant, restaurant_prompt)] ∧
    (pushToHubMain o).pushed = [] ∧
    ∀ p, (pushNameBasic, p) ∉ (pushToHubMain o).attempts := by
  refine ⟨by simp [pushToHubMain, tryBody, tryExcept, h], by
    simp [pushToHubMain, tryBody, tryExcept, h], ?_⟩
  intro p
  simp [pushToHubMain, tryBody, tryExcept, h]
  intro hcontra
  exact absurd hcontra (by decide)

/-- Witness for C10: with the concrete failing oracle, nothing reaches the
registry and the basic-agent prompt is never attempted. -/
theorem first_push_failure_stops_second_witness :
    (pushToHubMain oracleFailFirst).pushed = [] ∧
    ∀ p, (pushNameBasic, p) ∉ (pushToHubMain oracleFailFirst).attempts :=
  ⟨(first_push_failure_stops_second oracleFailFirst "boom" (by simp [oracleFailFirst])).2.1,
   (first_push_failure_stops_second oracleFailFirst "boom" (by simp [oracleFailFirst])).2.2⟩

end PushToHub

/-! ## Claims about the preference-tool adapter (modelled from the spec) -/

namespace PrefID

/-- Claim C4: for a valid credential triple, `get_user_preferences(domain)`
for a user with no recorded preference profile in that domain returns the
empty mapping rather than raising — the backend's `NotFoundError` is mapped to
the empty result — while any invalid token makes the call fail with
`AuthError`. -/
theorem get_user_preferences_notFound_empty (s : BackendState) (c : Credential)
    (domain : String) (hv : credValid s c = true)
    (hn : s.contentPrefs c.user_id domain = none) :
    backendGetContent s c.user_id domain
        = .error (.notFoundError "no preferences recorded for this domain") ∧
    get_user_preferences s c domain = .ok [] ∧
    ∀ c' : Credential, credValid s c' = false →
      get_user_preferences s c' domain = .error .authError := by
  refine ⟨by simp [backendGetContent, hn], ?_, ?_⟩
  · simp [get_user_preferences, hv, backendGetContent, hn]
  · intro c' hc'
    simp [get_user_preferences, hc']

/-- Witness for C4: in the sample backend with no recorded profiles, the valid
credential reads an empty mapping and the wrong token gets `AuthError`. -/
theorem get_user_preferences_notFound_empty_witness :
    get_user_preferences sampleState sampleCred "food_profile" = .ok [] ∧
    get_user_preferences sampleState badCred "food_profile" = .error .authError :=
  ⟨(get_user_preferences_notFound_empty sampleState sampleCred "food_profile"
      (by decide) rfl).2.1,
   (get_user_preferences_notFound_empty sampleState sampleCred "food_profile"
      (by decide) rfl).2.2 badCred (by decide)⟩

/-- Claim C5: `learn_thinking_preference` with empty preference text fails with
`ValidationError`; for every non-empty text (under a valid credential) it does
not raise `ValidationError` and returns an acknowledgement record carrying the
learned text. -/
theorem learn_thinking_preference_validation (s : BackendState) (c : Credential)
    (hv : credValid s c = true) :
    learn_thinking_preference s c ""
        = .error (.validationError "preference text must be non-empty") ∧
    ∀ text : String, text ≠ "" →
      ∃ ack s', learn_thinking_preference s c text = .ok (ack, s') ∧
        ack.learned = text ∧
        ∀ msg, learn_thinking_preference s c text ≠ .error (.validationError msg) := by
  refine ⟨by simp [learn_thinking_preference], ?_⟩
  intro text ht
  refine ⟨{ learned := text },
    { validTokens := s.validTokens
      contentPrefs := s.contentPrefs
      thinkingPrefs := fun u =>
        if u = c.user_id then some (((s.thinkingPrefs u).getD []) ++ [text])
        else s.thinkingPrefs u
      lastStyle := s.lastStyle }, ?_, rfl, ?_⟩
  · simp [learn_thinking_preference, ht, hv]
  · intro msg
    simp [learn_thinking_preference, ht, hv]

/-- Witness for C5: the empty text fails with `ValidationError`, while the
specification's sample preference text is learned and acknowledged. -/
theorem learn_thinking_preference_validation_witness :
    learn_thinking_preference sampleState sampleCred ""
        = .error (.validationError "preference text must be non-empty") ∧
    ∃ ack s', learn_thinking_preference sampleState sampleCred samplePreferenceText
        = .ok (ack, s') ∧ ack.learned = samplePreferenceText ∧
        ∀ msg, learn_thinking_preference sampleState sampleCred samplePreferenceText
          ≠ .error (.validationError msg) :=
  ⟨(learn_thinking_preference_validation sampleState sampleCred (by decide)).1,
   (learn_thinking_preference_validation sampleState sampleCred (by decide)).2
     samplePreferenceText (by decide)⟩

/-- Claim C6: `explain_response_style` called when no prior interaction has
been recorded for the user fails with `NotFoundError` — absence of stored
state is a hard error for the explain operation, not an empty result. -/
theorem explain_response_style_notFound (s : BackendState) (c : Credential)
    (hv : credValid s c = true) (hn : s.lastStyle c.user_id = none) :
    explain_response_style s c = .error (.notFoundError "no prior interaction recorded") := by
  simp [explain_response_style, hv, hn]

/-- Witness for C6: in the sample backend, which records no interaction, the
explain operation fails with `NotFoundError`. -/
theorem explain_response_style_notFound_witness :
    explain_response_style sampleState sampleCred
      = .error (.notFoundError "no prior interaction recorded") :=
  explain_response_style_notFound sampleState sampleCred (by decide) rfl

/-- Claim C7: for every valid credential triple and every domain, two
successive `get_user_preferences(domain)` calls with no intervening write
return identical results — the read leaves the backend state unchanged, so the
repeated call is run on the same state and yields the same answer. -/
theorem get_user_preferences_idempotent (s : BackendState) (c : Credential)
    (domain : String) (hv : credValid s c = true) :
    (runCall s c (.getPrefs domain)).2 = s ∧
    (runCall (runCall s c (.getPrefs domain)).2 c (.getPrefs domain)).1
      = (runCall s c (.getPrefs domain)).1 :=
  ⟨rfl, rfl⟩

/-- Witness for C7: the concrete double read on the sample backend. -/
theorem get_user_preferences_idempotent_witness :
    (runCall sampleState sampleCred (.getPrefs "food_profile")).2 = sampleState ∧
    (runCall (runCall sampleState sampleCred (.getPrefs "food_profile")).2 sampleCred
        (.getPrefs "food_profile")).1
      = (runCall sampleState sampleCred (.getPrefs "food_profile")).1 :=
  get_user_preferences_idempotent sampleState sampleCred "food_profile" (by decide)

/-- Claim C8: for every non-empty preference text (under a valid credential),
`learn_thinking_preference(text)` succeeds and an immediately following
`get_thinking_preferences()` on the resulting state returns a list containing
the newly learned text — write-then-read consistency. -/
theorem learn_then_read_reflects (s : BackendState) (c : Credential) (text : String)
    (hv : credValid s c = true) (ht : text ≠ "") :
    ∃ ack s', learn_thinking_preference s c text = .ok (ack, s') ∧
      ∃ l, get_thinking_preferences s' c = .ok l ∧ text ∈ l := by
  refine ⟨{ learned := text },
    { validTokens := s.validTokens
      contentPrefs := s.contentPrefs
      thinkingPrefs := fun u =>
        if u = c.user_id then some (((s.thinkingPrefs u).getD []) ++ [text])
        else s.thinkingPrefs u
      lastStyle := s.lastStyle }, ?_, ?_⟩
  · simp [learn_thinking_preference, ht, hv]
  · have hcred : credValid
        { validTokens := s.validTokens,
          contentPrefs := s.contentPrefs,
          thinkingPrefs := fun u =>
            if u = c.user_id then some (((s.thinkingPrefs u).getD []) ++ [text])
            else s.thinkingPrefs u,
          lastStyle := s.lastStyle } c = true := hv
    refine ⟨((s.thinkingPrefs c.user_id).getD []) ++ [text], ?_, by simp⟩
    simp [get_thinking_preferences, hcred, backendGetThinking]

/-- Witness for C8: learning the specification's sample preference text on the
sample backend, then reading, yields a list containing that text. -/
theorem learn_then_read_reflects_witness :
    ∃ ack s', learn_thinking_preference sampleState sampleCred samplePreferenceText
        = .ok (ack, s') ∧
      ∃ l, get_thinking_preferences s' sampleCred = .ok l ∧ samplePreferenceText ∈ l :=
  learn_then_read_reflects sampleState sampleCred samplePreferenceText (by decide) (by decide)

/-- Claim C9: every adapter operation is scoped by `user_id` and exactly one of
the two preference domains: the content read depends only on the credential
check and the user's content slice at the requested domain, the thinking read
and the explain operation depend only on the user's thinking-domain slices, and
the only write — the learn operation — changes nothing but the thinking slice
of its own user; the two domains are never conflated. -/
theorem adapter_domain_scoping :
    (∀ (s₁ s₂ : BackendState) (c : Credential) (domain : String),
      s₁.validTokens = s₂.validTokens →
      s₁.contentPrefs c.user_id domain = s₂.contentPrefs c.user_id domain →
      get_user_preferences s₁ c domain = get_user_preferences s₂ c domain) ∧
    (∀ (s₁ s₂ : BackendState) (c : Credential),
      s₁.validTokens = s₂.validTokens →
      s₁.thinkingPrefs c.user_id = s₂.thinkingPrefs c.user_id →
      get_thinking_preferences s₁ c = get_thinking_preferences s₂ c) ∧
    (∀ (s₁ s₂ : BackendState) (c : Credential),
      s₁.validTokens = s₂.validTokens →
      s₁.lastStyle c.user_id = s₂.lastStyle c.user_id →
      explain_response_style s₁ c = explain_response_style s₂ c) ∧
    (∀ (s : BackendState) (c : Credential) (text : String) (ack : Ack) (s' : BackendState),
      learn_thinking_preference s c text = .ok (ack, s') →
      s'.validTokens = s.validTokens ∧
      s'.contentPrefs = s.contentPrefs ∧
      s'.lastStyle = s.lastStyle ∧
      ∀ u, u ≠ c.user_id → s'.thinkingPrefs u = s.thinkingPrefs u) := by
  refine ⟨?_, ?_, ?_, ?_⟩
  · intro s₁ s₂ c domain hT hC
    simp [get_user_preferences, credValid, hT, backendGetContent, hC]
  · intro s₁ s₂ c hT hTh
    simp [get_thinking_preferences, credValid, hT, backendGetThinking, hTh]
  · intro s₁ s₂ c hT hL
    simp [explain_response_style, credValid, hT, hL]
  · intro s c text ack s' h
    by_cases ht : text = ""
    · simp [learn_thinking_preference, ht] at h
    by_cases hv : credValid s c = true
    · simp only [learn_thinking_preference, if_neg ht, hv, if_true] at h
      obtain ⟨h₁, h₂⟩ := by
        simpa using h
      subst h₂
      refine ⟨rfl, rfl, rfl, ?_⟩
      intro u hu
      simp [hu]
    · rw [learn_thinking_preference, if_neg ht, if_neg hv] at h
      simp at h

/-- Witness for C9: the content read returns the same result on two backends
that differ only in the thinking domain, so reading content never consults
thinking state. -/
theorem adapter_domain_scoping_witness :
    get_user_preferences sampleState sampleCred "food_profile"
      = get_user_preferences sampleStateThinking sampleCred "food_profile" :=
  adapter_domain_scoping.1 sampleState sampleStateThinking sampleCred "food_profile" rfl rfl

end PrefID
